import Mathlib

/-!
Verification of the runtime-programmable-switch control-plane client
(`sswitch_grpc_cli`): a shallow embedding of the pipeline-graph
reconfiguration engine of `p4runtime_lib/runtime_reconfig_tools.py`,
the primitive-command validator of `p4runtime_lib/switch.py`, and the
`set_forwarding_pipeline_config` branch of `sswitch_grpc_cli.py`,
together with theorems settling the specification claims.

Conventions of the embedding:
* Python exceptions become the `PyErr` error type of an `Except`-valued
  result; the distinct constructors model the distinct Python exception
  classes that can escape (`P4RuntimeReconfigError`, `KeyError`,
  `IndexError`, `TypeError`, `UnboundLocalError`).  Message strings are
  transliterations of the source messages (apostrophes dropped).
* A `networkx.MultiDiGraph` becomes `PGraph`: the node list in insertion
  order plus the edge list `(src, tgt, label)` in insertion order.  The
  derived accessors reproduce the networkx iteration orders used by the
  source: successors / predecessors in first-edge-insertion order,
  parallel edges in insertion order, `edges()` grouped by source node in
  node-insertion order.
* A pipeline JSON's ingress object becomes `Ingress`; the presence of
  the unsupported `action_calls` key is the boolean field
  `action_calls`; absent `flex_name` keys are `Option.none`; `null`
  successor references are `Option.none`.
* Python `set` iteration order is implementation defined; we model the
  node set collected from `nx.all_simple_paths` as a list deduplicated
  in first-insertion order.  Every theorem below that inspects such a
  set does so in a case where the set is a singleton, where every
  possible iteration order agrees with the model.
-/

/-- The kinds of Python exception that can escape the embedded code:
`P4RuntimeReconfigError` (with its message), plus `KeyError`,
`IndexError`, `TypeError` and `UnboundLocalError`. -/
inductive PyErr where
  | reconfigError (msg : String)
  | keyError
  | indexError
  | typeError
  | unboundLocalError
  deriving DecidableEq

instance {ε α : Type} [DecidableEq ε] [DecidableEq α] : DecidableEq (Except ε α) := fun x y =>
  match x, y with
  | .ok a, .ok b =>
    if h : a = b then isTrue (by rw [h]) else isFalse (fun he => h (by cases he; rfl))
  | .error a, .error b =>
    if h : a = b then isTrue (by rw [h]) else isFalse (fun he => h (by cases he; rfl))
  | .ok _, .error _ => isFalse (fun he => Except.noConfusion he)
  | .error _, .ok _ => isFalse (fun he => Except.noConfusion he)

/-- Python `s[:n]` on strings. -/
def strTake (s : String) (n : Nat) : String := ⟨s.data.take n⟩

/-- Python `s[n:]` on strings. -/
def strDrop (s : String) (n : Nat) : String := ⟨s.data.drop n⟩

/-- Python `s[n]` on strings; `none` models the `IndexError` case. -/
def charAt? (s : String) (n : Nat) : Option Char := s.data.get? n

theorem string_ext : ∀ (a b : String), a.data = b.data → a = b := by
  intro a b h
  cases a
  cases b
  cases h
  rfl

theorem string_mk_eq_iff (l : List Char) (s : String) : String.mk l = s ↔ l = s.data := by
  cases s with
  | mk d =>
    constructor
    · intro h
      cases h
      rfl
    · intro h
      cases h
      rfl

theorem strdata_append (a b : String) : (a ++ b).data = a.data ++ b.data := by
  cases a
  cases b
  rfl

/-- `List.flatMap` written out (kept version independent). -/
def listFlatMap {α β : Type} (f : α → List β) : List α → List β
  | [] => []
  | x :: xs => f x ++ listFlatMap f xs

/-- Order-preserving deduplication keeping first occurrences, matching the
neighbour iteration order of a networkx adjacency dictionary. -/
def dedupFirstAux (seen : List String) : List String → List String
  | [] => []
  | x :: xs =>
    if seen.contains x then dedupFirstAux seen xs
    else x :: dedupFirstAux (x :: seen) xs

/-- A `networkx.MultiDiGraph` as used by `generate_graph`: nodes in
insertion order and labelled edges `(src, tgt, label)` in insertion
order.  Node attribute dictionaries are irrelevant to the claims and
are not modelled. -/
structure PGraph where
  nodes : List String
  edges : List (String × String × String)
  deriving DecidableEq

/-- `graph.add_nodes_from([(n, ...)])`: a repeated key only updates the
attribute dictionary, so the node list is unchanged. -/
def PGraph.addNode (g : PGraph) (n : String) : PGraph :=
  if g.nodes.contains n then g else { g with nodes := g.nodes ++ [n] }

/-- `graph.add_edges_from([(u, v, ...)])`.  In `generate_graph` both
endpoints are always already nodes of the graph (every id handed out by
`name2id` was inserted as a node first), so appending the edge alone is
observably identical to networkx's behaviour. -/
def PGraph.addEdge (g : PGraph) (u v t : String) : PGraph :=
  { g with edges := g.edges ++ [(u, v, t)] }

/-- The labels of the parallel edges from `u` to `v` in insertion order:
`[graph[u][v][i]["type"] for i in range(len(graph[u][v]))]`. -/
def PGraph.succTypes (g : PGraph) (u v : String) : List String :=
  (g.edges.filter (fun e => e.1 == u && e.2.1 == v)).map (fun e => e.2.2)

/-- The distinct successors of `u` in first-edge-insertion order: the
keys of the networkx adjacency dictionary `graph[u]`. -/
def PGraph.neighbors (g : PGraph) (u : String) : List String :=
  dedupFirstAux [] ((g.edges.filter (fun e => e.1 == u)).map (fun e => e.2.1))

/-- The distinct predecessors of `v` in first-edge-insertion order: the
keys of `graph.pred[v]`. -/
def PGraph.preds (g : PGraph) (v : String) : List String :=
  dedupFirstAux [] ((g.edges.filter (fun e => e.2.1 == v)).map (fun e => e.1))

/-- `graph.in_edges(v, data=True)` projected to `(src, label)` pairs, in
networkx order: predecessors in first-edge order, parallel edges in
insertion order. -/
def PGraph.inEdges (g : PGraph) (v : String) : List (String × String) :=
  listFlatMap (fun u => (g.succTypes u v).map (fun t => (u, t))) (g.preds v)

/-- `graph.edges()` iteration order: grouped by source node in
node-insertion order, then by successor in first-edge order, then one
pair per parallel edge. -/
def PGraph.edgePairs (g : PGraph) : List (String × String) :=
  listFlatMap
    (fun u => listFlatMap (fun v => (g.succTypes u v).map (fun _ => (u, v))) (g.neighbors u))
    g.nodes

/-- One element of a pipeline JSON's `tables` array: `name`,
`flex_name` (absent key modelled as `none`), `base_default_next`
(`null` modelled as `none`) and the `next_tables` mapping in its JSON
key order. -/
structure PTable where
  name : String
  flex_name : Option String
  base_default_next : Option String
  next_tables : List (String × Option String)
  deriving DecidableEq

/-- One element of a pipeline JSON's `conditionals` array. -/
structure PConditional where
  name : String
  flex_name : Option String
  true_next : Option String
  false_next : Option String
  deriving DecidableEq

/-- The ingress member of a pipeline JSON's `pipelines` array;
`action_calls` records presence of the unsupported key. -/
structure Ingress where
  init_table : Option String
  tables : List PTable
  conditionals : List PConditional
  action_calls : Bool
  deriving DecidableEq

/-- A Python dict with `Option String` keys (`None` is a key in the
source's `name2id`), represented as the list of assignments in program
order; lookup returns the latest binding. -/
def dictLookup : List (Option String × String) → Option String → Option String
  | [], _ => none
  | p :: rest, k =>
    match dictLookup rest k with
    | some v => some v
    | none => if p.1 = k then some p.2 else none

/-- The node-insertion loop over `ingress["tables"]` of
`generate_graph` (source lines 367-371): raise if a table lacks a
`flex_name`, else add the node and bind `name -> flex_name`. -/
def procTables : PGraph → List (Option String × String) → List PTable →
    Except PyErr (PGraph × List (Option String × String))
  | g, n2i, [] => .ok (g, n2i)
  | g, n2i, t :: ts =>
    match t.flex_name with
    | none => .error (.reconfigError ("Cant find flex name for table " ++ t.name))
    | some fn => procTables (g.addNode fn) (n2i ++ [(some t.name, fn)]) ts

/-- The node-insertion loop over `ingress["conditionals"]` (source
lines 373-377). -/
def procConds : PGraph → List (Option String × String) → List PConditional →
    Except PyErr (PGraph × List (Option String × String))
  | g, n2i, [] => .ok (g, n2i)
  | g, n2i, c :: cs =>
    match c.flex_name with
    | none => .error (.reconfigError ("Cant find flex name for conditional " ++ c.name))
    | some fn => procConds (g.addNode fn) (n2i ++ [(some c.name, fn)]) cs

/-- The `next_tables` sub-loop of the table-edge pass (source lines
392-398): a successor name not in `name2id` is only reported and the
edge omitted. -/
def nextTableEdges (n2i : List (Option String × String)) (curId : String) :
    PGraph → List (String × Option String) → PGraph
  | g, [] => g
  | g, (lbl, nxt) :: rest =>
    match dictLookup n2i nxt with
    | some nid => nextTableEdges n2i curId (g.addEdge curId nid lbl) rest
    | none => nextTableEdges n2i curId g rest

/-- The table-edge pass of `generate_graph` (source lines 384-402).
Note the nesting of the source: when `base_default_next` does not
resolve, the `next_tables` entries of that table are skipped as well. -/
def tableEdges (n2i : List (Option String × String)) : PGraph → List PTable → PGraph
  | g, [] => g
  | g, t :: ts =>
    match dictLookup n2i (some t.name) with
    | none => tableEdges n2i g ts
    | some curId =>
      match dictLookup n2i t.base_default_next with
      | none => tableEdges n2i g ts
      | some nextId =>
        tableEdges n2i
          (nextTableEdges n2i curId (g.addEdge curId nextId ("base_default_next")) t.next_tables)
          ts

/-- The conditional-edge pass (source lines 404-415).  Both edges are
added in a single `add_edges_from`, guarded by the nested resolvability
checks of `true_next` then `false_next`: if either fails to resolve,
neither edge is added. -/
def condEdges (n2i : List (Option String × String)) : PGraph → List PConditional → PGraph
  | g, [] => g
  | g, c :: cs =>
    match dictLookup n2i (some c.name) with
    | none => condEdges n2i g cs
    | some cid =>
      match dictLookup n2i c.true_next with
      | none => condEdges n2i g cs
      | some tid =>
        match dictLookup n2i c.false_next with
        | none => condEdges n2i g cs
        | some fid =>
          condEdges n2i ((g.addEdge cid tid ("true_next")).addEdge cid fid ("false_next")) cs

/-- `generate_graph` of `runtime_reconfig_tools.py` (lines 347-417),
with the JSON file already decoded into its ingress object.  The direct
dictionary subscript `name2id[ingress["init_table"]]` raises `KeyError`
when the initial table is named but absent. -/
def generate_graph (ing : Ingress) : Except PyErr PGraph :=
  let g0 := ((PGraph.mk [] []).addNode ("old_r")).addNode ("old_s")
  match procTables g0 [(none, ("old_s"))] ing.tables with
  | .error e => .error e
  | .ok (g1, n1) =>
    match procConds g1 n1 ing.conditionals with
    | .error e => .error e
    | .ok (g2, n2) =>
      if ing.action_calls then .error (.reconfigError ("We dont support action_calls"))
      else
        match dictLookup n2 ing.init_table with
        | none => .error .keyError
        | some initId =>
          .ok (condEdges n2
                (tableEdges n2 (g2.addEdge ("old_r") initId ("base_default_next")) ing.tables)
                ing.conditionals)

/-- `type_letter_to_type` (source lines 51-60), applied to a single
character (callers always pass `name[4]`). -/
def type_letter_to_type (c : Char) : Except PyErr String :=
  if c = 't' then .ok ("tabl")
  else if c = 'c' then .ok ("cond")
  else .error (.reconfigError ("Invalid type letter"))

/-- The idiom `type_letter_to_type(name[4])`: Python raises `IndexError`
when the name is shorter than five characters. -/
def nodeTypeAt (name : String) : Except PyErr String :=
  match charAt? name 4 with
  | none => .error .indexError
  | some c => type_letter_to_type c

/-- `eliminate_type_letter_in_name` (source lines 62-63):
`name[:4] + name[5:]`. -/
def eliminate_type_letter_in_name (name : String) : String :=
  strTake name 4 ++ strDrop name 5

/-- `"flx_flex_func_mount_point_number_${}$".format(k)`. -/
def flexBranchName (k : Int) : String :=
  "flx_flex_func_mount_point_number_$" ++ toString k ++ "$"

/-- The node-insertion command loop of `generate_install_func_commands`
(source lines 90-96): skip the synthetic root and sink, classify every
other merged-graph node by its fifth character. -/
def insertNodeCmds : List String → Except PyErr (List String)
  | [] => .ok []
  | n :: ns =>
    if n = "old_r" ∨ n = "old_s" then insertNodeCmds ns
    else
      match nodeTypeAt n with
      | .error e => .error e
      | .ok ty =>
        match insertNodeCmds ns with
        | .error e => .error e
        | .ok r => .ok (("insert " ++ ty ++ " ingress " ++ eliminate_type_letter_in_name n) :: r)

/-- State of the merged-graph edge walk of
`generate_install_func_commands` (source lines 99-125). -/
structure WalkState where
  firstNode : Option String
  endNodes : List (String × String)
  uv : List ((String × String) × Nat)
  cmds : List String

/-- Latest binding in the `uv_dict` occurrence-counter dictionary. -/
def lookupUV : List ((String × String) × Nat) → (String × String) → Option Nat
  | [], _ => none
  | p :: rest, k =>
    match lookupUV rest k with
    | some v => some v
    | none => if p.1 = k then some p.2 else none

/-- The edge walk over `merged_graph.edges()` (source lines 102-125):
the first edge out of `old_r` names the splice entry vertex; an edge
into `old_s` is collected into the exit set; any other edge becomes a
`change` primitive, indexed into the multigraph by the per-`(u, v)`
occurrence counter. -/
def walkMergedEdges (g : PGraph) : WalkState → List (String × String) → Except PyErr WalkState
  | st, [] => .ok st
  | st, (u, v) :: es =>
    if u = "old_r" then walkMergedEdges g { st with firstNode := some v } es
    else
      let idx := match lookupUV st.uv (u, v) with | some n => n + 1 | none => 0
      let uv2 := st.uv ++ [((u, v), idx)]
      match (g.succTypes u v).get? idx with
      | none => .error .indexError
      | some edgeTy =>
        match nodeTypeAt u with
        | .error e => .error e
        | .ok uTy =>
          if v = "old_s" then
            walkMergedEdges g { st with uv := uv2, endNodes := st.endNodes ++ [(u, edgeTy)] } es
          else
            let c := "change " ++ uTy ++ " ingress " ++ eliminate_type_letter_in_name u ++ " " ++
              edgeTy ++ " " ++ eliminate_type_letter_in_name v
            walkMergedEdges g { st with uv := uv2, cmds := st.cmds ++ [c] } es

/-- The exit-set loop (source lines 129-136), redirecting each collected
`(end_node, label)` to the `end_point` (`old_s` encoded as `null`). -/
def exitCmds (end_point : String) : List (String × String) → Except PyErr (List String)
  | [] => .ok []
  | (n, ty) :: rest =>
    match nodeTypeAt n with
    | .error e => .error e
    | .ok nty =>
      match exitCmds end_point rest with
      | .error e => .error e
      | .ok r =>
        .ok (("change " ++ nty ++ " ingress " ++ eliminate_type_letter_in_name n ++ " " ++ ty ++
              " " ++ (if end_point ≠ "old_s" then eliminate_type_letter_in_name end_point
                      else "null")) :: r)

/-- The start-point redirect loop (source lines 149-156): one `change`
primitive per snapshotted edge label from `start_point` to
`end_point`. -/
def startRedirectCmds (start_point flexName : String) : List String → Except PyErr (List String)
  | [] => .ok []
  | ty :: rest =>
    match nodeTypeAt start_point with
    | .error e => .error e
    | .ok sty =>
      match startRedirectCmds start_point flexName rest with
      | .error e => .error e
      | .ok r =>
        .ok (("change " ++ sty ++ " ingress " ++ eliminate_type_letter_in_name start_point ++
              " " ++ ty ++ " " ++ flexName) :: r)

/-- Everything `generate_install_func_commands` does after the
negative-slot check (source lines 86-163), given the already
snapshotted `start_point -> end_point` edge labels `conn`. -/
def installBody (merged_graph : PGraph)
    (merged_json_file_path start_point end_point : String) (conn : List String)
    (mount_point_number : Int) : Except PyErr (List String) :=
  let flexName := flexBranchName mount_point_number
  match insertNodeCmds merged_graph.nodes with
      | .error e => .error e
      | .ok inserts =>
        match walkMergedEdges merged_graph ⟨none, [], [], []⟩ merged_graph.edgePairs with
        | .error e => .error e
        | .ok st =>
          match exitCmds end_point st.endNodes with
          | .error e => .error e
          | .ok exits =>
            match st.firstNode with
            | none => .error .typeError
            | some fn =>
              match (if start_point ≠ "old_r" then startRedirectCmds start_point flexName conn
                     else .ok ["change init ingress " ++ flexName]) with
              | .error e => .error e
              | .ok redirects =>
                .ok ((["init_p4objects_new " ++ merged_json_file_path,
                       "insert flex ingress " ++ flexName ++ " null null"] ++ inserts) ++
                     st.cmds ++ exits ++
                     ["change flex ingress " ++ flexName ++ " false_next " ++
                        (if end_point ≠ "old_s" then eliminate_type_letter_in_name end_point
                         else "null"),
                      "change flex ingress " ++ flexName ++ " true_next " ++
                        eliminate_type_letter_in_name fn] ++
                     redirects ++
                     ["trigger on " ++ toString mount_point_number])

/-- `generate_install_func_commands` (source lines 65-163) once both
graphs are built.  Failure points in source order: `KeyError` from the
`runtime_graph[start_point][end_point]` snapshot, the negative-slot
check (there is no upper-bound check), then the emission stages of
`installBody`: type-letter errors while inserting nodes, walking edges
and emitting the exit set, `TypeError` from
`eliminate_type_letter_in_name(None)` when the merged graph has no edge
out of `old_r`, and type-letter errors in the start redirect. -/
def generate_install_from_graphs (runtime_graph merged_graph : PGraph)
    (merged_json_file_path start_point end_point : String) (mount_point_number : Int) :
    Except PyErr (List String) :=
  if runtime_graph.nodes.contains start_point = false then .error .keyError
  else
    let conn := runtime_graph.succTypes start_point end_point
    if conn.length = 0 then .error .keyError
    else if mount_point_number < 0 then
      .error (.reconfigError ("mount_point_number cant smaller than 0"))
    else installBody merged_graph merged_json_file_path start_point end_point conn
      mount_point_number

/-- `generate_install_func_commands` including the two `generate_graph`
calls on the decoded runtime and merged pipeline JSONs. -/
def generate_install_func_commands (runtime merged : Ingress)
    (merged_json_file_path start_point end_point : String) (k : Int) :
    Except PyErr (List String) :=
  match generate_graph runtime with
  | .error e => .error e
  | .ok rg =>
    match generate_graph merged with
    | .error e => .error e
    | .ok mg => generate_install_from_graphs rg mg merged_json_file_path start_point end_point k

/-- Bounded depth-first enumeration of the simple paths from `cur` to
`target` avoiding `visited`; the fuel bound `|nodes| + 1` suffices for
every simple path. -/
def simplePathsAux (g : PGraph) : Nat → String → String → List String → List (List String)
  | 0, _, _, _ => []
  | Nat.succ fuel, cur, target, visited =>
    if cur = target then [[cur]]
    else
      listFlatMap
        (fun n => (simplePathsAux g fuel n target (cur :: visited)).map (fun p => cur :: p))
        ((g.neighbors cur).filter (fun n => !((cur :: visited).contains n)))

/-- `nx.all_simple_paths(graph, source, target)` as a list of node
lists. -/
def allSimplePaths (g : PGraph) (s t : String) : List (List String) :=
  simplePathsAux g (g.nodes.length + 1) s t []

/-- The true/false successor scan of the uninstall planner (source
lines 178-185): for each neighbour of the mount branch, look at the
first parallel edge's label. -/
def findBranchTargets (g : PGraph) (flx : String) : Option String × Option String :=
  (g.neighbors flx).foldl
    (fun acc nb =>
      match (g.succTypes flx nb).head? with
      | some ty =>
        if ty = "true_next" then (some nb, acc.2)
        else if ty = "false_next" then (acc.1, some nb)
        else acc
      | none => acc)
    (none, none)

/-- The node-deletion loop of the uninstall planner (source lines
196-199). -/
def deleteCmds : List String → Except PyErr (List String)
  | [] => .ok []
  | n :: ns =>
    match nodeTypeAt n with
    | .error e => .error e
    | .ok ty =>
      match deleteCmds ns with
      | .error e => .error e
      | .ok r => .ok (("delete " ++ ty ++ " ingress " ++ eliminate_type_letter_in_name n) :: r)

/-- The parent-rewiring loop of the uninstall planner (source lines
202-216).  The source's `else` branch tests
`len(parent_node_of_flex) > 1` where `parent_node_of_flex` is the loop
variable assigned only in the `if` branch: when `old_r` is encountered
before any non-root parent the variable is unbound
(`UnboundLocalError`); otherwise the length of the previously seen
parent's NAME is tested. -/
def parentCmds (pF : String) : Option String → List (String × String) →
    Except PyErr (List String)
  | _, [] => .ok []
  | lastP, (p, ty) :: rest =>
    if p ≠ "old_r" then
      match nodeTypeAt p with
      | .error e => .error e
      | .ok pty =>
        match parentCmds pF (some p) rest with
        | .error e => .error e
        | .ok r =>
          .ok (("change " ++ pty ++ " ingress " ++ eliminate_type_letter_in_name p ++ " " ++
                ty ++ " " ++ pF) :: r)
    else
      match lastP with
      | none => .error .unboundLocalError
      | some s =>
        if s.length > 1 then
          .error (.reconfigError
            ("old_r is flex branchs parent, but flex branch has more than one parent"))
        else
          match parentCmds pF lastP rest with
          | .error e => .error e
          | .ok r => .ok (("change init ingress " ++ pF) :: r)

/-- `generate_uninstall_func_commands` (source lines 165-221) once the
runtime graph is built.  `runtime_graph[branch]` raises `KeyError` when
the mount branch is not a node; the branch-arity test counts DISTINCT
successors (`len(runtime_graph[branch])`); the removal
`nodes_to_be_deleted.remove(false_next_node)` raises `KeyError` when no
simple path reached the false-next target. -/
def generate_uninstall_from_graph (g : PGraph) (k : Int) : Except PyErr (List String) :=
  let flexName := flexBranchName k
  if g.nodes.contains flexName = false then .error .keyError
  else if (g.neighbors flexName).length ≠ 2 then
    .error (.reconfigError ("flex_func_mount_point_branch doesnt have two edges"))
  else
    match findBranchTargets g flexName with
    | (none, _) => .error .typeError
    | (some _, none) => .error .typeError
    | (some tnv, some fnv) =>
      let pF := if fnv ≠ "old_s" then eliminate_type_letter_in_name fnv else "null"
      let del0 := dedupFirstAux [] (listFlatMap (fun p => p) (allSimplePaths g tnv fnv))
      if del0.contains fnv = false then .error .keyError
      else
        match deleteCmds (del0.filter (fun x => !(x == fnv))) with
        | .error e => .error e
        | .ok dels =>
          match parentCmds pF none (g.inEdges flexName) with
          | .error e => .error e
          | .ok pars =>
            .ok ((("trigger off " ++ toString k) :: dels) ++ pars ++
                 ["delete flex ingress " ++ flexName])

/-- `generate_uninstall_func_commands` including the `generate_graph`
call on the decoded runtime pipeline JSON. -/
def generate_uninstall_func_commands (ing : Ingress) (k : Int) : Except PyErr (List String) :=
  match generate_graph ing with
  | .error e => .error e
  | .ok g => generate_uninstall_from_graph g k

/-- The result of `RuntimeReconfigCommandParser` on success: `action`,
`action_target` and `action_arguments`.  (For `trigger` /
`init_p4objects_new` the source stores the single raw token in
`action_arguments`; we store it as a one-element list.) -/
structure ParsedCmd where
  action : String
  action_target : String
  action_arguments : List String
  deriving DecidableEq

/-- Helper for `pySplit`: consume characters, flushing the accumulated
token (held reversed) at each whitespace run. -/
def splitWsAux : List Char → List Char → List String
  | [], acc => if acc.isEmpty then [] else [⟨acc.reverse⟩]
  | c :: cs, acc =>
    if c.isWhitespace then
      if acc.isEmpty then splitWsAux cs [] else ⟨acc.reverse⟩ :: splitWsAux cs []
    else splitWsAux cs (c :: acc)

/-- Python `str.split()` with no argument: split on whitespace runs,
dropping empty tokens. -/
def pySplit (s : String) : List String := splitWsAux s.data []

/-- `RuntimeReconfigCommandParser._parse_runtime_reconfig_command`
(`switch.py` lines 37-97).  The guard
`self.action != "trigger" or self.action != "init_p4objects_new"` of
line 45 is a tautology, so `cmd_entries[1]` is always read (raising
`IndexError` on one-token commands) and the target validation block is
always entered; `trigger` and `init_p4objects_new` then require exactly
two whitespace tokens in total. -/
def parse_runtime_reconfig_command (cmd : String) : Except PyErr ParsedCmd :=
  let entries := pySplit cmd
  match entries.get? 0 with
  | none => .error .indexError
  | some action =>
    if (["insert", "change", "delete", "trigger", "init_p4objects_new"].contains action) = false
    then .error (.reconfigError ("Invalid Command: cant recognize action"))
    else
      match entries.get? 1 with
      | none => .error .indexError
      | some tgt =>
        if action = "insert" ∧
            (["tabl", "cond", "flex", "register_array"].contains tgt) = false then
          .error (.reconfigError ("Invalid command: cant recognize action target for insert"))
        else if action = "change" ∧
            (["tabl", "cond", "flex", "register_array_size", "register_array_bitwidth",
              "init"].contains tgt) = false then
          .error (.reconfigError ("Invalid command: cant recognize action target for change"))
        else if action = "delete" ∧
            (["tabl", "cond", "flex", "register_array"].contains tgt) = false then
          .error (.reconfigError ("Invalid command: cant recognize action target for delete"))
        else if action = "trigger" ∨ action = "init_p4objects_new" then
          if entries.length ≠ 2 then
            .error (.reconfigError
              ("Invalid command: trigger or init_p4objects_new command requires 1 argument"))
          else .ok ⟨action, tgt, [tgt]⟩
        else if action = "insert" ∧ tgt = "tabl" ∧ entries.length ≠ 4 then
          .error (.reconfigError ("Invalid command: insert tabl should have 2 arguments"))
        else if action = "insert" ∧ tgt = "cond" ∧ entries.length ≠ 4 then
          .error (.reconfigError ("Invalid command: insert cond should have 2 arguments"))
        else if action = "insert" ∧ tgt = "flex" ∧ entries.length ≠ 6 then
          .error (.reconfigError ("Invalid command: insert flex should have 4 arguments"))
        else if action = "insert" ∧ tgt = "register_array" ∧ entries.length ≠ 5 then
          .error (.reconfigError ("Invalid command: insert register_array should have 3 arguments"))
        else if action = "change" ∧ tgt = "tabl" ∧ entries.length ≠ 6 then
          .error (.reconfigError ("Invalid command: change tabl should have 4 arguments"))
        else if action = "change" ∧ tgt = "cond" ∧ entries.length ≠ 6 then
          .error (.reconfigError ("Invalid command: change cond should have 4 arguments"))
        else if action = "change" ∧ tgt = "flex" ∧ entries.length ≠ 6 then
          .error (.reconfigError ("Invalid command: change flex should have 4 arguments"))
        else if action = "change" ∧ tgt = "register_array_size" ∧ entries.length ≠ 4 then
          .error (.reconfigError
            ("Invalid command: change register_array_size should have 2 arguments"))
        else if action = "change" ∧ tgt = "register_array_bitwidth" ∧ entries.length ≠ 4 then
          .error (.reconfigError
            ("Invalid command: change register_array_bitwidth should have 2 arguments"))
        else if action = "delete" ∧ tgt = "tabl" ∧ entries.length ≠ 4 then
          .error (.reconfigError ("Invalid command: delete tabl should have 2 arguments"))
        else if action = "delete" ∧ tgt = "cond" ∧ entries.length ≠ 4 then
          .error (.reconfigError ("Invalid command: delete cond should have 2 arguments"))
        else if action = "delete" ∧ tgt = "flex" ∧ entries.length ≠ 4 then
          .error (.reconfigError ("Invalid command: delete flex should have 2 arguments"))
        else if action = "delete" ∧ tgt = "register_array" ∧ entries.length ≠ 3 then
          .error (.reconfigError ("Invalid command: delete register_array should have 1 argument"))
        else .ok ⟨action, tgt, entries.drop 2⟩

/-- `flex_name_to_human_readable_name` (source lines 515-529).  Note
the synthetic root and sink map to the SPACED forms produced by the
source. -/
def flex_name_to_human_readable_name (flex_name : String) : Except PyErr String :=
  if flex_name = "old_r" then .ok (" [root] ")
  else if flex_name = "old_s" then .ok (" [sink] ")
  else if strTake flex_name 4 = "flx_" then .ok flex_name
  else
    match charAt? flex_name 4 with
    | none => .error .indexError
    | some c =>
      if c = 't' then .ok ("table" ++ "[" ++ eliminate_type_letter_in_name flex_name ++ "]")
      else if c = 'c' then
        .ok ("conditional" ++ "[" ++ eliminate_type_letter_in_name flex_name ++ "]")
      else .error (.reconfigError ("Invalid graph name"))

/-- `human_readable_name_to_flex_name` (source lines 531-549):
`partition('[')` keeps everything before the FIRST bracket as the type
name; `node_name_tmp[:-1]` drops the final character. -/
def human_readable_name_to_flex_name (h : String) : Except PyErr String :=
  if h = "[root]" then .ok ("old_r")
  else if h = "[sink]" then .ok ("old_s")
  else if strTake h 4 = "flx_" then .ok h
  else
    let type_name : String := ⟨h.data.takeWhile (fun c => !(c == '['))⟩
    let node_name : String := ⟨((h.data.dropWhile (fun c => !(c == '['))).drop 1).dropLast⟩
    if type_name = "table" then .ok (strTake node_name 4 ++ "t" ++ strDrop node_name 4)
    else if type_name = "conditional" then
      .ok (strTake node_name 4 ++ "c" ++ strDrop node_name 4)
    else .error (.reconfigError ("Invalid human readable name"))

/-- The flex-name discipline of the spec: the synthetic root and sink,
mount-branch names prefixed `flx_`, and `old_` / `new_` names carrying
kind letter `t` or `c`. -/
def ValidFlexName (f : String) : Prop :=
  f = "old_r" ∨ f = "old_s" ∨ strTake f 4 = "flx_" ∨
    ((strTake f 4 = "old_" ∨ strTake f 4 = "new_") ∧
      (charAt? f 4 = some 't' ∨ charAt? f 4 = some 'c'))

instance (f : String) : Decidable (ValidFlexName f) := by
  unfold ValidFlexName
  infer_instance

/-- `human_readable_name_to_flex_name(flex_name_to_human_readable_name(f))`. -/
def humanAfterFlex (f : String) : Except PyErr String :=
  match flex_name_to_human_readable_name f with
  | .error e => .error e
  | .ok h => human_readable_name_to_flex_name h

/-- `flex_to_human(human_to_flex(flex_to_human(f)))`. -/
def secondRoundTrip (f : String) : Except PyErr String :=
  match flex_name_to_human_readable_name f with
  | .error e => .error e
  | .ok h =>
    match human_readable_name_to_flex_name h with
    | .error e => .error e
    | .ok f2 => flex_name_to_human_readable_name f2

/-- The table loop of `generate_migrate_json_file` (source lines
489-493): a table's `flex_name`, whatever its prefix, is rewritten to
`new_t<name>`; a missing tag raises. -/
def migrateTables : List PTable → Except PyErr (List PTable)
  | [] => .ok []
  | t :: ts =>
    match t.flex_name with
    | none => .error (.reconfigError ("Cant find flex name for table " ++ t.name))
    | some _ =>
      match migrateTables ts with
      | .error e => .error e
      | .ok r => .ok ({ t with flex_name := some ("new_t" ++ t.name) } :: r)

/-- The conditional loop of `generate_migrate_json_file` (source lines
495-500): only conditionals test for the `flx_` prefix; such tags are
preserved, the rest rewritten to `new_c<name>`. -/
def migrateConds : List PConditional → Except PyErr (List PConditional)
  | [] => .ok []
  | c :: cs =>
    match c.flex_name with
    | none => .error (.reconfigError ("Cant find flex name for conditional " ++ c.name))
    | some fn =>
      match migrateConds cs with
      | .error e => .error e
      | .ok r =>
        if strTake fn 4 = "flx_" then .ok (c :: r)
        else .ok ({ c with flex_name := some ("new_c" ++ c.name) } :: r)

/-- The ingress transformation of `generate_migrate_json_file` (source
lines 478-513); file naming and writing are I/O and elided. -/
def generate_migrate_json_ingress (ing : Ingress) : Except PyErr Ingress :=
  match migrateTables ing.tables with
  | .error e => .error e
  | .ok ts =>
    match migrateConds ing.conditionals with
    | .error e => .error e
    | .ok cs =>
      if ing.action_calls then .error (.reconfigError ("We dont support action_calls"))
      else .ok { ing with tables := ts, conditionals := cs }

/-- The pure part of `update_init_forwarding_pipeline_json_file`
(source lines 454-476): tag every table `old_t<name>` and every
conditional `old_c<name>`. -/
def tagInitial (ing : Ingress) : Ingress :=
  { ing with
    tables := ing.tables.map (fun t => { t with flex_name := some ("old_t" ++ t.name) }),
    conditionals :=
      ing.conditionals.map (fun c => { c with flex_name := some ("old_c" ++ c.name) }) }

/-- `update_init_forwarding_pipeline_json_file` as a value
transformation: the `action_calls` check aborts before the file is
rewritten. -/
def update_init_forwarding_pipeline_json (ing : Ingress) : Except PyErr Ingress :=
  if ing.action_calls then .error (.reconfigError ("We dont support action_calls"))
  else .ok (tagInitial ing)

/-- The per-switch session state of `sswitch_grpc_cli.py` relevant to
`set_forwarding_pipeline_config`: `SSwitchGRPCConnection.
latest_config_json_path`, the two graphs of `ProgramGraphManager`, and
the `already_init_p4objects_new` flag. -/
structure CLISession where
  latest_config_json_path : Option String
  init_graph : Option PGraph
  cur_graph : Option PGraph
  already_init_p4objects_new : Bool
  deriving DecidableEq

/-- `ProgramGraphManager.update_graph` (source lines 424-428): the
first successful build populates `init_graph`, every build replaces
`cur_graph`. -/
def update_graph (s : CLISession) (g : PGraph) : CLISession :=
  { s with
    init_graph := match s.init_graph with | none => some g | some h => some h,
    cur_graph := some g }

/-- The `set_forwarding_pipeline_config` branch of
`SSwitchGRPCCLI._exec_one_command` (`sswitch_grpc_cli.py` lines
282-300), with file-existence checks, the P4Info load and the gRPC
upload elided as I/O: tag the pipeline `old_*`, record the JSON path
and rebuild the graph.  The branch performs NO check of the prior
session state. -/
def exec_set_forwarding_pipeline_config (s : CLISession) (bmv2_json_path : String)
    (ing : Ingress) : Except PyErr (CLISession × Ingress) :=
  match update_init_forwarding_pipeline_json ing with
  | .error e => .error e
  | .ok tagged =>
    match generate_graph tagged with
    | .error e => .error e
    | .ok g =>
      .ok (update_graph { s with latest_config_json_path := some bmv2_json_path } g, tagged)

/-- Scenario A runtime pipeline: table `A` (flex `old_tA`) whose
`base_default_next` is conditional `B` (flex `old_cB`); `B`'s branches
are null. -/
def rtA : Ingress :=
  ⟨some ("A"), [⟨"A", some ("old_tA"), some ("B"), []⟩],
    [⟨"B", some ("old_cB"), none, none⟩], false⟩

/-- Scenario A merged pipeline: a single table `X` (flex `new_tX`) with
null `base_default_next`, so the merged graph is
`old_r -> new_tX -> old_s` via `base_default_next`. -/
def mgA : Ingress :=
  ⟨some ("X"), [⟨"X", some ("new_tX"), none, []⟩], [], false⟩

/-- The command sequence `generate_install_func_commands` actually
emits on the Scenario A inputs, as a function of the mount slot. -/
def installedCmdsA (k : Int) : List String :=
  ["init_p4objects_new " ++ "merged.json",
   "insert flex ingress " ++ flexBranchName k ++ " null null",
   "insert tabl ingress new_X",
   "change tabl ingress new_X base_default_next old_B",
   "change flex ingress " ++ flexBranchName k ++ " false_next " ++ "old_B",
   "change flex ingress " ++ flexBranchName k ++ " true_next " ++ "new_X",
   "change tabl ingress old_A base_default_next " ++ flexBranchName k,
   "trigger on " ++ toString k]

/-- The sequence claim C2 asserts verbatim (its fourth element omits
the `tabl ingress` wire encoding and keeps the kind letter). -/
def claimedCmdsC2 : List String :=
  ["init_p4objects_new merged.json",
   "insert flex ingress flx_flex_func_mount_point_number_$3$ null null",
   "insert tabl ingress new_X",
   "change new_tX base_default_next old_B",
   "change flex ingress flx_flex_func_mount_point_number_$3$ false_next old_B",
   "change flex ingress flx_flex_func_mount_point_number_$3$ true_next new_X",
   "change tabl ingress old_A base_default_next flx_flex_func_mount_point_number_$3$",
   "trigger on 3"]

/-- The Scenario A runtime pipeline after the slot-3 install: `old_tA`
now feeds the mount branch, the branch's `true_next` is the new table
`X` and its `false_next` is `B`, and `X` continues to `B`. -/
def rtC3 : Ingress :=
  ⟨some ("A"),
    [⟨"A", some ("old_tA"), some ("fmnt"), []⟩, ⟨"X", some ("new_tX"), some ("B"), []⟩],
    [⟨"B", some ("old_cB"), none, none⟩,
     ⟨"fmnt", some ("flx_flex_func_mount_point_number_$3$"), some ("X"), some ("B")⟩],
    false⟩

/-- A runtime pipeline after an install at the root (Scenario B with
slot 0): `init_table` is the mount branch, whose `true_next` is the new
table `X` and whose `false_next` is the original first table `A`. -/
def rtC5 : Ingress :=
  ⟨some ("fmnt"),
    [⟨"A", some ("old_tA"), none, []⟩, ⟨"X", some ("new_tX"), some ("A"), []⟩],
    [⟨"fmnt", some ("flx_flex_func_mount_point_number_$0$"), some ("X"), some ("A")⟩],
    false⟩

/-- C7 counterexample pipeline: conditional `B` has a null `true_next`
and a `false_next` naming the absent node `ghost`; table `A`'s
`base_default_next` also names `ghost`. -/
def ingC7 : Ingress :=
  ⟨some ("A"), [⟨"A", some ("old_tA"), some ("ghost"), []⟩],
    [⟨"B", some ("old_cB"), none, some ("ghost")⟩], false⟩

/-- C7 witness pipeline: table `A` with null `base_default_next` and
conditional `B` with both branches null. -/
def ingC7w : Ingress :=
  ⟨some ("A"), [⟨"A", some ("old_tA"), none, []⟩],
    [⟨"B", some ("old_cB"), none, none⟩], false⟩

/-- An untagged initial pipeline as handed to
`set_forwarding_pipeline_config`. -/
def ingC8 : Ingress :=
  ⟨some ("A"), [⟨"A", none, none, []⟩], [], false⟩

/-- C9 counterexample pipeline: a TABLE whose flex-name has the `flx_`
prefix. -/
def ingC9 : Ingress :=
  ⟨some ("T"), [⟨"T", some ("flx_special"), none, []⟩], [], false⟩

/-- C9 witness pipeline: an `old_` table, plus one `flx_` and one
`old_` conditional. -/
def ingC9w : Ingress :=
  ⟨some ("A"), [⟨"A", some ("old_tA"), none, []⟩],
    [⟨"M", some ("flx_m"), none, none⟩, ⟨"B", some ("old_cB"), none, none⟩], false⟩

/-- C10 witness graph: the slot-7 mount branch with its `true_next` and
`false_next` edges both targeting the same vertex `old_tA`. -/
def g10 : PGraph :=
  ⟨["flx_flex_func_mount_point_number_$7$", "old_tA"],
   [("flx_flex_func_mount_point_number_$7$", "old_tA", "true_next"),
    ("flx_flex_func_mount_point_number_$7$", "old_tA", "false_next")]⟩

/-- C6 (amended): on the Scenario A inputs,
`generate_install_func_commands` fails (with `P4RuntimeReconfigError`)
exactly for the negative mount slots; every slot `k >= 0` — including
every `k >= 128` — is accepted and produces the full install sequence.
The `[0, 128)` range is enforced only by the CLI command layer
(`sswitch_grpc_cli.py` lines 316-317), not by the planner or the
primitive parser. -/
theorem c6_install_slot_check_only_lower_bound (k : Int) :
    generate_install_func_commands rtA mgA ("merged.json") ("old_tA") ("old_cB") k =
      if k < 0 then .error (.reconfigError ("mount_point_number cant smaller than 0"))
      else .ok (installedCmdsA k) := by
  have hbody : installBody
      ⟨["old_r", "old_s", "new_tX"],
       [("old_r", "new_tX", "base_default_next"), ("new_tX", "old_s", "base_default_next")]⟩
      ("merged.json") ("old_tA") ("old_cB") ["base_default_next"] k =
      .ok (installedCmdsA k) := rfl
  show (if k < 0 then .error (.reconfigError ("mount_point_number cant smaller than 0"))
    else installBody
      ⟨["old_r", "old_s", "new_tX"],
       [("old_r", "new_tX", "base_default_next"), ("new_tX", "old_s", "base_default_next")]⟩
      ("merged.json") ("old_tA") ("old_cB") ["base_default_next"] k) = _
  by_cases h : k < 0
  · rw [if_pos h, if_pos h]
  · rw [if_neg h, if_neg h]
    exact hbody

/-- C6 (counterexample): the claim says every planner fails with
`InvalidCommand` for a slot outside `[0, 128)`; but
`generate_install_func_commands` at slot 128 succeeds and returns the
full eight-command install sequence. -/
theorem c6_counterexample :
    generate_install_func_commands rtA mgA ("merged.json") ("old_tA") ("old_cB") 128 =
      .ok ["init_p4objects_new merged.json",
           "insert flex ingress flx_flex_func_mount_point_number_$128$ null null",
           "insert tabl ingress new_X",
           "change tabl ingress new_X base_default_next old_B",
           "change flex ingress flx_flex_func_mount_point_number_$128$ false_next old_B",
           "change flex ingress flx_flex_func_mount_point_number_$128$ true_next new_X",
           "change tabl ingress old_A base_default_next flx_flex_func_mount_point_number_$128$",
           "trigger on 128"] := by
  decide

/-- C2 (counterexample): on the Scenario A inputs with slot 3 the
planner emits `change tabl ingress new_X base_default_next old_B` as
its fourth primitive, not the claimed
`change new_tX base_default_next old_B`; hence the emitted sequence
differs from the claimed one. -/
theorem c2_counterexample :
    generate_install_func_commands rtA mgA ("merged.json") ("old_tA") ("old_cB") 3 =
      .ok (installedCmdsA 3) ∧ installedCmdsA 3 ≠ claimedCmdsC2 := by
  exact ⟨rfl, by decide⟩

/-- C2 (amended): on the Scenario A inputs with slot 3 the planner
returns exactly this sequence, whose fourth element is the exit-set
primitive in wire format, `change tabl ingress new_X base_default_next
old_B`; all other elements are as the claim states. -/
theorem c2_install_scenarioA :
    generate_install_func_commands rtA mgA ("merged.json") ("old_tA") ("old_cB") 3 =
      .ok ["init_p4objects_new merged.json",
           "insert flex ingress flx_flex_func_mount_point_number_$3$ null null",
           "insert tabl ingress new_X",
           "change tabl ingress new_X base_default_next old_B",
           "change flex ingress flx_flex_func_mount_point_number_$3$ false_next old_B",
           "change flex ingress flx_flex_func_mount_point_number_$3$ true_next new_X",
           "change tabl ingress old_A base_default_next flx_flex_func_mount_point_number_$3$",
           "trigger on 3"] := by
  decide

/-- C3 (confirmed): on the post-install Scenario A runtime pipeline,
`generate_uninstall_func_commands` with slot 3 returns exactly the four
claimed primitives in the claimed order. -/
theorem c3_uninstall_scenarioC :
    generate_uninstall_func_commands rtC3 3 =
      .ok ["trigger off 3",
           "delete tabl ingress new_X",
           "change tabl ingress old_A base_default_next old_B",
           "delete flex ingress flx_flex_func_mount_point_number_$3$"] := by
  decide

/-- C1 (code bug): the install planner's final primitive on the
Scenario A inputs is `trigger on 3`, and
`RuntimeReconfigCommandParser` raises `P4RuntimeReconfigError` on that
very string, because the parser demands exactly two whitespace tokens
for a `trigger` command while the planners emit three
(`trigger`, `on`/`off`, slot). -/
theorem c1_parser_rejects_planner_trigger :
    (generate_install_func_commands rtA mgA ("merged.json") ("old_tA") ("old_cB") 3 =
      .ok (installedCmdsA 3)) ∧
    "trigger on 3" ∈ installedCmdsA 3 ∧
    parse_runtime_reconfig_command ("trigger on 3") =
      .error (.reconfigError
        ("Invalid command: trigger or init_p4objects_new command requires 1 argument")) := by
  exact ⟨rfl, by decide, by decide⟩

/-- C5 (code bug): on a runtime pipeline where the slot-0 mount branch
was installed at the root — so `old_r` is its unique parent — the
uninstall planner crashes with `UnboundLocalError` instead of emitting
`change init ingress old_A`: the source tests
`len(parent_node_of_flex) > 1`, a loop variable only assigned in the
non-root branch, instead of `len(parents_of_flex) > 1`. -/
theorem c5_uninstall_root_parent_crash :
    generate_uninstall_func_commands rtC5 0 = .error .unboundLocalError := by
  decide

/-- C7 (counterexample): in pipeline `ingC7`, table `A`'s
`base_default_next` names the absent node `ghost` and conditional `B`
has a null `true_next` next to a `false_next` naming `ghost`; the
resulting graph has only the root edge — neither dangling successor is
materialized as an edge to the sink `old_s`. -/
theorem c7_counterexample :
    generate_graph ingC7 =
      .ok ⟨["old_r", "old_s", "old_tA", "old_cB"],
           [("old_r", "old_tA", "base_default_next")]⟩ := by
  decide

/-- C8 (counterexample): starting from a fresh session,
`set_forwarding_pipeline_config` succeeds, and invoking it a second
time on the resulting session succeeds again (overwriting the recorded
pipeline path) instead of failing with `PreconditionUnmet`. -/
theorem c8_counterexample :
    exec_set_forwarding_pipeline_config ⟨none, none, none, false⟩ ("a.json") ingC8 =
      .ok (⟨some ("a.json"),
            some ⟨["old_r", "old_s", "old_tA"],
                  [("old_r", "old_tA", "base_default_next"),
                   ("old_tA", "old_s", "base_default_next")]⟩,
            some ⟨["old_r", "old_s", "old_tA"],
                  [("old_r", "old_tA", "base_default_next"),
                   ("old_tA", "old_s", "base_default_next")]⟩, false⟩,
           tagInitial ingC8) ∧
    exec_set_forwarding_pipeline_config
      ⟨some ("a.json"),
       some ⟨["old_r", "old_s", "old_tA"],
             [("old_r", "old_tA", "base_default_next"),
              ("old_tA", "old_s", "base_default_next")]⟩,
       some ⟨["old_r", "old_s", "old_tA"],
             [("old_r", "old_tA", "base_default_next"),
              ("old_tA", "old_s", "base_default_next")]⟩, false⟩ ("b.json") ingC8 =
      .ok (⟨some ("b.json"),
            some ⟨["old_r", "old_s", "old_tA"],
                  [("old_r", "old_tA", "base_default_next"),
                   ("old_tA", "old_s", "base_default_next")]⟩,
            some ⟨["old_r", "old_s", "old_tA"],
                  [("old_r", "old_tA", "base_default_next"),
                   ("old_tA", "old_s", "base_default_next")]⟩, false⟩,
           tagInitial ingC8) := by
  exact ⟨by decide, by decide⟩

/-- C9 (counterexample): `generate_migrate_json_file` rewrites a
TABLE's flex-name to `new_t<name>` even when its prefix is `flx_`; the
`flx_` preservation test exists only in the conditional loop. -/
theorem c9_counterexample :
    generate_migrate_json_ingress ingC9 =
      .ok ⟨some ("T"), [⟨"T", some ("new_tT"), none, []⟩], [], false⟩ := by
  decide

/-- C10 (confirmed): the uninstall planner's branch-arity test counts
DISTINCT successor vertices (`len(runtime_graph[branch])`), so when the
mount branch's `true_next` and `false_next` edges both target the same
vertex — two outgoing edges, one distinct successor — it raises the
"doesnt have two edges" error and returns no commands. -/
theorem c10_same_target_branch_rejected (g : PGraph) (k : Int) (v : String)
    (hmem : g.nodes.contains (flexBranchName k) = true)
    (hnb : g.neighbors (flexBranchName k) = [v])
    (_hty : g.succTypes (flexBranchName k) v = ["true_next", "false_next"]) :
    generate_uninstall_from_graph g k =
      .error (.reconfigError ("flex_func_mount_point_branch doesnt have two edges")) := by
  unfold generate_uninstall_from_graph
  simp only [hmem, hnb]
  simp

theorem c10_same_target_branch_rejected_witness :
    g10.nodes.contains (flexBranchName 7) = true ∧
    g10.neighbors (flexBranchName 7) = ["old_tA"] ∧
    g10.succTypes (flexBranchName 7) ("old_tA") = ["true_next", "false_next"] ∧
    generate_uninstall_from_graph g10 7 =
      .error (.reconfigError ("flex_func_mount_point_branch doesnt have two edges")) := by
  refine ⟨by decide, by decide, by decide, ?_⟩
  exact c10_same_target_branch_rejected g10 7 ("old_tA") (by decide) (by decide) (by decide)

theorem migrateTables_ok (ts : List PTable) (h : ∀ t ∈ ts, t.flex_name.isSome = true) :
    migrateTables ts =
      .ok (ts.map (fun t => { t with flex_name := some ("new_t" ++ t.name) })) := by
  induction ts with
  | nil => rfl
  | cons t ts ih =>
    obtain ⟨fn, hfn⟩ := Option.isSome_iff_exists.mp (h t (List.mem_cons_self t ts))
    have ihr := ih (fun x hx => h x (List.mem_cons_of_mem t hx))
    simp only [migrateTables, hfn, ihr, List.map_cons]

theorem migrateTables_err (ts : List PTable) (h : ∃ t ∈ ts, t.flex_name = none) :
    ∃ e, migrateTables ts = .error e := by
  induction ts with
  | nil => simp at h
  | cons t ts ih =>
    rcases h with ⟨x, hx, hnone⟩
    rcases List.mem_cons.mp hx with rfl | hx2
    · exact ⟨.reconfigError ("Cant find flex name for table " ++ x.name),
        by simp only [migrateTables, hnone]⟩
    · cases hfn : t.flex_name with
      | none => exact ⟨.reconfigError ("Cant find flex name for table " ++ t.name),
          by simp only [migrateTables, hfn]⟩
      | some fn =>
        obtain ⟨e, he⟩ := ih ⟨x, hx2, hnone⟩
        exact ⟨e, by simp only [migrateTables, hfn, he]⟩

theorem migrateConds_ok (cs : List PConditional)
    (h : ∀ c ∈ cs, c.flex_name.isSome = true) :
    migrateConds cs =
      .ok (cs.map (fun c =>
        if strTake (c.flex_name.getD "") 4 = "flx_" then c
        else { c with flex_name := some ("new_c" ++ c.name) })) := by
  induction cs with
  | nil => rfl
  | cons c cs ih =>
    obtain ⟨fn, hfn⟩ := Option.isSome_iff_exists.mp (h c (List.mem_cons_self c cs))
    have ihr := ih (fun x hx => h x (List.mem_cons_of_mem c hx))
    simp only [migrateConds, hfn, ihr, List.map_cons, Option.getD_some]
    by_cases hp : strTake fn 4 = "flx_"
    · simp only [if_pos hp]
    · simp only [if_neg hp]

theorem migrateConds_err (cs : List PConditional) (h : ∃ c ∈ cs, c.flex_name = none) :
    ∃ e, migrateConds cs = .error e := by
  induction cs with
  | nil => simp at h
  | cons c cs ih =>
    rcases h with ⟨x, hx, hnone⟩
    rcases List.mem_cons.mp hx with rfl | hx2
    · exact ⟨.reconfigError ("Cant find flex name for conditional " ++ x.name),
        by simp only [migrateConds, hnone]⟩
    · cases hfn : c.flex_name with
      | none => exact ⟨.reconfigError ("Cant find flex name for conditional " ++ c.name),
          by simp only [migrateConds, hfn]⟩
      | some fn =>
        obtain ⟨e, he⟩ := ih ⟨x, hx2, hnone⟩
        refine ⟨e, ?_⟩
        simp only [migrateConds, hfn, he]

/-- C9 (amended): the tag-migrate transformation rewrites every TABLE
flex-name to `new_t<name>` regardless of its prefix, rewrites every
conditional flex-name not prefixed `flx_` to `new_c<name>` while
preserving `flx_` conditionals, and fails with an error as soon as any
table or conditional lacks a flex-name. -/
theorem c9_migrate_tagging (ing : Ingress) :
    ((∀ t ∈ ing.tables, t.flex_name.isSome = true) →
     (∀ c ∈ ing.conditionals, c.flex_name.isSome = true) →
     ing.action_calls = false →
      generate_migrate_json_ingress ing =
        .ok { ing with
              tables := ing.tables.map (fun t => { t with flex_name := some ("new_t" ++ t.name) }),
              conditionals := ing.conditionals.map (fun c =>
                if strTake (c.flex_name.getD "") 4 = "flx_" then c
                else { c with flex_name := some ("new_c" ++ c.name) }) }) ∧
    (((∃ t ∈ ing.tables, t.flex_name = none) ∨ (∃ c ∈ ing.conditionals, c.flex_name = none)) →
      ∃ e, generate_migrate_json_ingress ing = .error e) := by
  constructor
  · intro h1 h2 h3
    simp only [generate_migrate_json_ingress, migrateTables_ok ing.tables h1,
      migrateConds_ok ing.conditionals h2, h3]
    rfl
  · intro h
    rcases h with ht | hc
    · obtain ⟨e, he⟩ := migrateTables_err ing.tables ht
      exact ⟨e, by simp only [generate_migrate_json_ingress, he]⟩
    · cases hmt : migrateTables ing.tables with
      | error e => exact ⟨e, by simp only [generate_migrate_json_ingress, hmt]⟩
      | ok ts =>
        obtain ⟨e, he⟩ := migrateConds_err ing.conditionals hc
        exact ⟨e, by simp only [generate_migrate_json_ingress, hmt, he]⟩

theorem c9_migrate_tagging_witness :
    (∀ t ∈ ingC9w.tables, t.flex_name.isSome = true) ∧
    (∀ c ∈ ingC9w.conditionals, c.flex_name.isSome = true) ∧
    ingC9w.action_calls = false ∧
    generate_migrate_json_ingress ingC9w =
      .ok ⟨some ("A"), [⟨"A", some ("new_tA"), none, []⟩],
           [⟨"M", some ("flx_m"), none, none⟩, ⟨"B", some ("new_cB"), none, none⟩], false⟩ := by
  refine ⟨by decide, by decide, rfl, ?_⟩
  have h := (c9_migrate_tagging ingC9w).1 (by decide) (by decide) rfl
  exact h.trans (by decide)

/-- The flex-name a table contributes to `name2id` (defined when the
table carries a tag). -/
def flexOfT (t : PTable) : String := t.flex_name.getD ""

/-- The flex-name a conditional contributes to `name2id`. -/
def flexOfC (c : PConditional) : String := c.flex_name.getD ""

/-- The `name -> flex_name` bindings contributed by the tables. -/
def tabPairs (ts : List PTable) : List (Option String × String) :=
  ts.map (fun t => (some t.name, flexOfT t))

/-- The `name -> flex_name` bindings contributed by the conditionals. -/
def condPairs (cs : List PConditional) : List (Option String × String) :=
  cs.map (fun c => (some c.name, flexOfC c))

/-- The full `name2id` dictionary built by `generate_graph`, in
assignment order. -/
def name2idOf (ing : Ingress) : List (Option String × String) :=
  ([(none, ("old_s"))] ++ tabPairs ing.tables) ++ condPairs ing.conditionals

theorem addNode_edges (g : PGraph) (n : String) : (g.addNode n).edges = g.edges := by
  unfold PGraph.addNode
  split <;> rfl

theorem procTables_spec (ts : List PTable) :
    ∀ (g : PGraph) (n2i : List (Option String × String)),
      (∀ t ∈ ts, t.flex_name.isSome = true) →
      ∃ g', procTables g n2i ts = .ok (g', n2i ++ tabPairs ts) ∧ g'.edges = g.edges := by
  induction ts with
  | nil => intro g n2i _; exact ⟨g, by simp [procTables, tabPairs], rfl⟩
  | cons t ts ih =>
    intro g n2i h
    obtain ⟨fn, hfn⟩ := Option.isSome_iff_exists.mp (h t (List.mem_cons_self t ts))
    obtain ⟨g', hg', hed⟩ :=
      ih (g.addNode fn) (n2i ++ [(some t.name, fn)])
        (fun x hx => h x (List.mem_cons_of_mem t hx))
    refine ⟨g', ?_, by rw [hed, addNode_edges]⟩
    simp only [procTables, hfn, hg']
    have : flexOfT t = fn := by simp [flexOfT, hfn]
    simp [tabPairs, this, List.append_assoc]

theorem procConds_spec (cs : List PConditional) :
    ∀ (g : PGraph) (n2i : List (Option String × String)),
      (∀ c ∈ cs, c.flex_name.isSome = true) →
      ∃ g', procConds g n2i cs = .ok (g', n2i ++ condPairs cs) ∧ g'.edges = g.edges := by
  induction cs with
  | nil => intro g n2i _; exact ⟨g, by simp [procConds, condPairs], rfl⟩
  | cons c cs ih =>
    intro g n2i h
    obtain ⟨fn, hfn⟩ := Option.isSome_iff_exists.mp (h c (List.mem_cons_self c cs))
    obtain ⟨g', hg', hed⟩ :=
      ih (g.addNode fn) (n2i ++ [(some c.name, fn)])
        (fun x hx => h x (List.mem_cons_of_mem c hx))
    refine ⟨g', ?_, by rw [hed, addNode_edges]⟩
    simp only [procConds, hfn, hg']
    have : flexOfC c = fn := by simp [flexOfC, hfn]
    simp [condPairs, this, List.append_assoc]

theorem dictLookup_keys_ne (l : List (Option String × String)) (k : Option String)
    (h : ∀ p ∈ l, p.1 ≠ k) : dictLookup l k = none := by
  induction l with
  | nil => rfl
  | cons p rest ih =>
    have hr := ih (fun q hq => h q (List.mem_cons_of_mem p hq))
    simp only [dictLookup, hr, if_neg (h p (List.mem_cons_self p rest))]

theorem dictLookup_append (l1 l2 : List (Option String × String)) (k : Option String) :
    dictLookup (l1 ++ l2) k =
      match dictLookup l2 k with
      | some v => some v
      | none => dictLookup l1 k := by
  induction l1 with
  | nil => cases h : dictLookup l2 k <;> simp [dictLookup, h]
  | cons p l1 ih =>
    show (match dictLookup (l1 ++ l2) k with
          | some v => some v
          | none => if p.1 = k then some p.2 else none) = _
    rw [ih]
    cases h : dictLookup l2 k <;> cases h1 : dictLookup l1 k <;>
      simp [dictLookup, h, h1]

theorem dictLookup_tabPairs_of_mem (ts : List PTable) (t : PTable) (ht : t ∈ ts)
    (hnd : (ts.map PTable.name).Nodup) :
    dictLookup (tabPairs ts) (some t.name) = some (flexOfT t) := by
  induction ts with
  | nil => simp at ht
  | cons t' ts ih =>
    rw [List.map_cons, List.nodup_cons] at hnd
    rcases List.mem_cons.mp ht with rfl | hmem
    · have hnone : dictLookup (tabPairs ts) (some t.name) = none := by
        refine dictLookup_keys_ne _ _ ?_
        intro p hp
        obtain ⟨x, hx, rfl⟩ := List.mem_map.mp hp
        intro he
        exact hnd.1 (List.mem_map.mpr ⟨x, hx, Option.some_injective _ he⟩)
      show (match dictLookup (tabPairs ts) (some t.name) with
            | some v => some v
            | none =>
              if (some t.name : Option String) = some t.name then some (flexOfT t)
              else none) = _
      rw [hnone]
      simp
    · have hr := ih hmem hnd.2
      show (match dictLookup (tabPairs ts) (some t.name) with
            | some v => some v
            | none =>
              if (some t'.name : Option String) = some t.name then some (flexOfT t')
              else none) = _
      rw [hr]

theorem dictLookup_condPairs_of_mem (cs : List PConditional) (c : PConditional) (hc : c ∈ cs)
    (hnd : (cs.map PConditional.name).Nodup) :
    dictLookup (condPairs cs) (some c.name) = some (flexOfC c) := by
  induction cs with
  | nil => simp at hc
  | cons c' cs ih =>
    rw [List.map_cons, List.nodup_cons] at hnd
    rcases List.mem_cons.mp hc with rfl | hmem
    · have hnone : dictLookup (condPairs cs) (some c.name) = none := by
        refine dictLookup_keys_ne _ _ ?_
        intro p hp
        obtain ⟨x, hx, rfl⟩ := List.mem_map.mp hp
        intro he
        exact hnd.1 (List.mem_map.mpr ⟨x, hx, Option.some_injective _ he⟩)
      show (match dictLookup (condPairs cs) (some c.name) with
            | some v => some v
            | none =>
              if (some c.name : Option String) = some c.name then some (flexOfC c)
              else none) = _
      rw [hnone]
      simp
    · have hr := ih hmem hnd.2
      show (match dictLookup (condPairs cs) (some c.name) with
            | some v => some v
            | none =>
              if (some c'.name : Option String) = some c.name then some (flexOfC c')
              else none) = _
      rw [hr]

theorem tabPairs_keys_not_none (ts : List PTable) : ∀ p ∈ tabPairs ts, p.1 ≠ none := by
  intro p hp
  obtain ⟨x, _, rfl⟩ := List.mem_map.mp hp
  simp

theorem condPairs_keys_not_none (cs : List PConditional) : ∀ p ∈ condPairs cs, p.1 ≠ none := by
  intro p hp
  obtain ⟨x, _, rfl⟩ := List.mem_map.mp hp
  simp

theorem lookup_name2idOf_none (ing : Ingress) :
    dictLookup (name2idOf ing) none = some ("old_s") := by
  unfold name2idOf
  rw [dictLookup_append, dictLookup_keys_ne _ _ (condPairs_keys_not_none ing.conditionals),
    dictLookup_append, dictLookup_keys_ne _ _ (tabPairs_keys_not_none ing.tables)]
  rfl

theorem lookup_name2idOf_table (ing : Ingress) (t : PTable) (ht : t ∈ ing.tables)
    (hnd : (ing.tables.map PTable.name ++ ing.conditionals.map PConditional.name).Nodup) :
    dictLookup (name2idOf ing) (some t.name) = some (flexOfT t) := by
  obtain ⟨hnd1, hnd2, hdisj⟩ := List.nodup_append.mp hnd
  have hnotc : dictLookup (condPairs ing.conditionals) (some t.name) = none := by
    refine dictLookup_keys_ne _ _ ?_
    intro p hp
    obtain ⟨x, hx, rfl⟩ := List.mem_map.mp hp
    intro he
    exact hdisj (List.mem_map_of_mem PTable.name ht)
      (List.mem_map.mpr ⟨x, hx, Option.some_injective _ he⟩)
  unfold name2idOf
  rw [dictLookup_append, hnotc, dictLookup_append, dictLookup_tabPairs_of_mem _ t ht hnd1]

theorem lookup_name2idOf_cond (ing : Ingress) (c : PConditional) (hc : c ∈ ing.conditionals)
    (hnd : (ing.tables.map PTable.name ++ ing.conditionals.map PConditional.name).Nodup) :
    dictLookup (name2idOf ing) (some c.name) = some (flexOfC c) := by
  obtain ⟨hnd1, hnd2, hdisj⟩ := List.nodup_append.mp hnd
  unfold name2idOf
  rw [dictLookup_append, dictLookup_condPairs_of_mem _ c hc hnd2]

theorem mem_addEdge (g : PGraph) (u v t : String) (e : String × String × String)
    (h : e ∈ g.edges) : e ∈ (g.addEdge u v t).edges := by
  unfold PGraph.addEdge
  exact List.mem_append_left _ h

theorem nextTableEdges_mono (n2i : List (Option String × String)) (c : String)
    (l : List (String × Option String)) :
    ∀ (g : PGraph) (e : String × String × String),
      e ∈ g.edges → e ∈ (nextTableEdges n2i c g l).edges := by
  induction l with
  | nil => intro g e h; exact h
  | cons p rest ih =>
    intro g e h
    obtain ⟨lbl, nxt⟩ := p
    cases hl : dictLookup n2i nxt with
    | none => simpa only [nextTableEdges, hl] using ih g e h
    | some nid =>
      simpa only [nextTableEdges, hl] using ih (g.addEdge c nid lbl) e (mem_addEdge _ _ _ _ _ h)

theorem tableEdges_mono (n2i : List (Option String × String)) (ts : List PTable) :
    ∀ (g : PGraph) (e : String × String × String),
      e ∈ g.edges → e ∈ (tableEdges n2i g ts).edges := by
  induction ts with
  | nil => intro g e h; exact h
  | cons t ts ih =>
    intro g e h
    cases h1 : dictLookup n2i (some t.name) with
    | none => simpa only [tableEdges, h1] using ih g e h
    | some curId =>
      cases h2 : dictLookup n2i t.base_default_next with
      | none => simpa only [tableEdges, h1, h2] using ih g e h
      | some nextId =>
        simpa only [tableEdges, h1, h2] using
          ih _ e (nextTableEdges_mono n2i curId t.next_tables _ e
            (mem_addEdge _ _ _ _ _ h))

theorem condEdges_mono (n2i : List (Option String × String)) (cs : List PConditional) :
    ∀ (g : PGraph) (e : String × String × String),
      e ∈ g.edges → e ∈ (condEdges n2i g cs).edges := by
  induction cs with
  | nil => intro g e h; exact h
  | cons c cs ih =>
    intro g e h
    cases h1 : dictLookup n2i (some c.name) with
    | none => simpa only [condEdges, h1] using ih g e h
    | some cid =>
      cases h2 : dictLookup n2i c.true_next with
      | none => simpa only [condEdges, h1, h2] using ih g e h
      | some tid =>
        cases h3 : dictLookup n2i c.false_next with
        | none => simpa only [condEdges, h1, h2, h3] using ih g e h
        | some fid =>
          simpa only [condEdges, h1, h2, h3] using
            ih _ e (mem_addEdge _ _ _ _ _ (mem_addEdge _ _ _ _ _ h))

theorem tableEdges_sink (n2i : List (Option String × String)) (ts : List PTable) (t : PTable)
    (fx : String) :
    ∀ g : PGraph, t ∈ ts → dictLookup n2i (some t.name) = some fx →
      t.base_default_next = none → dictLookup n2i none = some ("old_s") →
      (fx, "old_s", "base_default_next") ∈ (tableEdges n2i g ts).edges := by
  induction ts with
  | nil => intro g h; simp at h
  | cons t' ts ih =>
    intro g hmem hname hbdn hnone
    rcases List.mem_cons.mp hmem with rfl | hmem2
    · simp only [tableEdges, hname, hbdn, hnone]
      refine tableEdges_mono n2i ts _ _ (nextTableEdges_mono n2i fx t.next_tables _ _ ?_)
      unfold PGraph.addEdge
      exact List.mem_append_right _ (by simp)
    · cases h1 : dictLookup n2i (some t'.name) with
      | none => simpa only [tableEdges, h1] using ih g hmem2 hname hbdn hnone
      | some curId =>
        cases h2 : dictLookup n2i t'.base_default_next with
        | none => simpa only [tableEdges, h1, h2] using ih g hmem2 hname hbdn hnone
        | some nextId =>
          simpa only [tableEdges, h1, h2] using ih _ hmem2 hname hbdn hnone

theorem condEdges_sink (n2i : List (Option String × String)) (cs : List PConditional)
    (c : PConditional) (fx : String) :
    ∀ g : PGraph, c ∈ cs → dictLookup n2i (some c.name) = some fx →
      c.true_next = none → c.false_next = none → dictLookup n2i none = some ("old_s") →
      (fx, "old_s", "true_next") ∈ (condEdges n2i g cs).edges ∧
      (fx, "old_s", "false_next") ∈ (condEdges n2i g cs).edges := by
  induction cs with
  | nil => intro g h; simp at h
  | cons c' cs ih =>
    intro g hmem hname htn hfn hnone
    rcases List.mem_cons.mp hmem with rfl | hmem2
    · simp only [condEdges, hname, htn, hfn, hnone]
      constructor
      · refine condEdges_mono n2i cs _ _ (mem_addEdge _ _ _ _ _ ?_)
        unfold PGraph.addEdge
        exact List.mem_append_right _ (by simp)
      · refine condEdges_mono n2i cs _ _ ?_
        unfold PGraph.addEdge
        exact List.mem_append_right _ (by simp)
    · cases h1 : dictLookup n2i (some c'.name) with
      | none => simpa only [condEdges, h1] using ih g hmem2 hname htn hfn hnone
      | some cid =>
        cases h2 : dictLookup n2i c'.true_next with
        | none => simpa only [condEdges, h1, h2] using ih g hmem2 hname htn hfn hnone
        | some tid =>
          cases h3 : dictLookup n2i c'.false_next with
          | none => simpa only [condEdges, h1, h2, h3] using ih g hmem2 hname htn hfn hnone
          | some fid =>
            simpa only [condEdges, h1, h2, h3] using ih _ hmem2 hname htn hfn hnone

theorem generate_graph_spec (ing : Ingress)
    (h1 : ∀ t ∈ ing.tables, t.flex_name.isSome = true)
    (h2 : ∀ c ∈ ing.conditionals, c.flex_name.isSome = true)
    (h3 : ing.action_calls = false)
    (initId : String) (h4 : dictLookup (name2idOf ing) ing.init_table = some initId) :
    ∃ g2 : PGraph, g2.edges = [] ∧
      generate_graph ing =
        .ok (condEdges (name2idOf ing)
              (tableEdges (name2idOf ing)
                (g2.addEdge ("old_r") initId ("base_default_next")) ing.tables)
              ing.conditionals) := by
  obtain ⟨g1, hpt, hg1ed⟩ :=
    procTables_spec ing.tables (((PGraph.mk [] []).addNode ("old_r")).addNode ("old_s"))
      [(none, ("old_s"))] h1
  obtain ⟨g2, hpc, hg2ed⟩ :=
    procConds_spec ing.conditionals g1 ([(none, ("old_s"))] ++ tabPairs ing.tables) h2
  have h4' : dictLookup (([(none, ("old_s"))] ++ tabPairs ing.tables) ++
      condPairs ing.conditionals) ing.init_table = some initId := h4
  refine ⟨g2, ?_, ?_⟩
  · rw [hg2ed, hg1ed]
    rfl
  · simp only [generate_graph, hpt, hpc, h3, h4']
    rfl

/-- C7 (amended): on every pipeline with no `action_calls`, fully
tagged tables/conditionals, distinct names and a resolvable
`init_table`, `generate_graph` succeeds (no dangling successor causes a
crash); a NULL `base_default_next` is materialized as a
`base_default_next` edge to the sink, and a conditional whose branches
are BOTH null gets `true_next` and `false_next` edges to the sink.
A successor naming an absent node is only reported and its edge
omitted (see the counterexample), and a null branch next to an
unresolvable sibling is omitted with it, per the source's nesting. -/
theorem c7_null_successors (ing : Ingress)
    (h1 : ∀ t ∈ ing.tables, t.flex_name.isSome = true)
    (h2 : ∀ c ∈ ing.conditionals, c.flex_name.isSome = true)
    (h3 : ing.action_calls = false)
    (h4 : (dictLookup (name2idOf ing) ing.init_table).isSome = true)
    (h5 : (ing.tables.map PTable.name ++ ing.conditionals.map PConditional.name).Nodup) :
    ∃ g, generate_graph ing = .ok g ∧
      (∀ t ∈ ing.tables, t.base_default_next = none →
        (flexOfT t, "old_s", "base_default_next") ∈ g.edges) ∧
      (∀ c ∈ ing.conditionals, c.true_next = none → c.false_next = none →
        (flexOfC c, "old_s", "true_next") ∈ g.edges ∧
        (flexOfC c, "old_s", "false_next") ∈ g.edges) := by
  obtain ⟨initId, h4'⟩ := Option.isSome_iff_exists.mp h4
  obtain ⟨g2, _, hgen⟩ := generate_graph_spec ing h1 h2 h3 initId h4'
  refine ⟨_, hgen, ?_, ?_⟩
  · intro t ht hbdn
    exact condEdges_mono _ _ _ _
      (tableEdges_sink (name2idOf ing) ing.tables t (flexOfT t) _ ht
        (lookup_name2idOf_table ing t ht h5) hbdn (lookup_name2idOf_none ing))
  · intro c hc htn hfn
    exact condEdges_sink (name2idOf ing) ing.conditionals c (flexOfC c) _ hc
      (lookup_name2idOf_cond ing c hc h5) htn hfn (lookup_name2idOf_none ing)

theorem c7_null_successors_witness :
    (∀ t ∈ ingC7w.tables, t.flex_name.isSome = true) ∧
    (∀ c ∈ ingC7w.conditionals, c.flex_name.isSome = true) ∧
    ingC7w.action_calls = false ∧
    (dictLookup (name2idOf ingC7w) ingC7w.init_table).isSome = true ∧
    (ingC7w.tables.map PTable.name ++ ingC7w.conditionals.map PConditional.name).Nodup ∧
    (∃ g, generate_graph ingC7w = .ok g ∧
      (∀ t ∈ ingC7w.tables, t.base_default_next = none →
        (flexOfT t, "old_s", "base_default_next") ∈ g.edges) ∧
      (∀ c ∈ ingC7w.conditionals, c.true_next = none → c.false_next = none →
        (flexOfC c, "old_s", "true_next") ∈ g.edges ∧
        (flexOfC c, "old_s", "false_next") ∈ g.edges)) := by
  refine ⟨by decide, by decide, rfl, by decide, by decide, ?_⟩
  exact c7_null_successors ingC7w (by decide) (by decide) rfl (by decide) (by decide)

/-- C8 (amended): the `set_forwarding_pipeline_config` branch performs
no session-state check at all: for EVERY prior session state it
succeeds (when the pipeline tags and graph build do, which they always
do for a well-formed pipeline), overwriting
`latest_config_json_path` and the current graph. -/
theorem c8_no_refusal (s : CLISession) (p : String) (ing : Ingress)
    (h3 : ing.action_calls = false)
    (h4 : (dictLookup (name2idOf (tagInitial ing)) (tagInitial ing).init_table).isSome = true) :
    ∃ g, exec_set_forwarding_pipeline_config s p ing =
      .ok (update_graph { s with latest_config_json_path := some p } g, tagInitial ing) := by
  obtain ⟨initId, h4'⟩ := Option.isSome_iff_exists.mp h4
  have ht1 : ∀ t ∈ (tagInitial ing).tables, t.flex_name.isSome = true := by
    intro t ht
    obtain ⟨x, hx, rfl⟩ := List.mem_map.mp ht
    rfl
  have ht2 : ∀ c ∈ (tagInitial ing).conditionals, c.flex_name.isSome = true := by
    intro c hc
    obtain ⟨x, hx, rfl⟩ := List.mem_map.mp hc
    rfl
  have h3' : (tagInitial ing).action_calls = false := h3
  obtain ⟨g2, _, hgen⟩ := generate_graph_spec (tagInitial ing) ht1 ht2 h3' initId h4'
  refine ⟨condEdges (name2idOf (tagInitial ing))
      (tableEdges (name2idOf (tagInitial ing))
        (g2.addEdge ("old_r") initId ("base_default_next")) (tagInitial ing).tables)
      (tagInitial ing).conditionals, ?_⟩
  simp only [exec_set_forwarding_pipeline_config, update_init_forwarding_pipeline_json, h3]
  show (match generate_graph (tagInitial ing) with
        | Except.error e => Except.error e
        | Except.ok g =>
          Except.ok
            (update_graph { s with latest_config_json_path := some p } g, tagInitial ing)) = _
  rw [hgen]

theorem c8_no_refusal_witness :
    ingC8.action_calls = false ∧
    (dictLookup (name2idOf (tagInitial ingC8)) (tagInitial ingC8).init_table).isSome = true ∧
    (∃ g, exec_set_forwarding_pipeline_config
        ⟨some ("a.json"),
         some ⟨["old_r", "old_s", "old_tA"],
               [("old_r", "old_tA", "base_default_next"),
                ("old_tA", "old_s", "base_default_next")]⟩,
         some ⟨["old_r", "old_s", "old_tA"],
               [("old_r", "old_tA", "base_default_next"),
                ("old_tA", "old_s", "base_default_next")]⟩, true⟩ ("b.json") ingC8 =
      .ok (update_graph
            { (⟨some ("a.json"),
                some ⟨["old_r", "old_s", "old_tA"],
                      [("old_r", "old_tA", "base_default_next"),
                       ("old_tA", "old_s", "base_default_next")]⟩,
                some ⟨["old_r", "old_s", "old_tA"],
                      [("old_r", "old_tA", "base_default_next"),
                       ("old_tA", "old_s", "base_default_next")]⟩, true⟩ : CLISession) with
              latest_config_json_path := some ("b.json") } g, tagInitial ingC8)) := by
  refine ⟨rfl, by decide, ?_⟩
  exact c8_no_refusal _ _ _ rfl (by decide)

theorem ne_of_data_head (s t : String) (a b : Char) (la lb : List Char)
    (hs : s.data = a :: la) (ht : t.data = b :: lb) (hab : a ≠ b) : s ≠ t := by
  intro he
  rw [he, ht] at hs
  injection hs with h1 _
  exact hab h1.symm

theorem take4_decomp (l : List Char) (a b c d : Char) (h : l.take 4 = [a, b, c, d]) :
    l = a :: b :: c :: d :: l.drop 4 := by
  rcases l with _ | ⟨x, _ | ⟨y, _ | ⟨z, _ | ⟨w, rest⟩⟩⟩⟩ <;> simp_all [List.take]

theorem take4_get4_decomp (l : List Char) (a b c d e : Char)
    (h1 : l.take 4 = [a, b, c, d]) (h2 : l.get? 4 = some e) :
    l = a :: b :: c :: d :: e :: l.drop 5 := by
  have h := take4_decomp l a b c d h1
  rcases hd : l.drop 4 with _ | ⟨x, rest⟩
  · rw [h, hd] at h2
    simp at h2
  · rw [h, hd] at h2
    simp at h2
    have h5 : l.drop 5 = rest := by
      rw [show (5 : Nat) = 4 + 1 from rfl, ← List.drop_drop, hd]
      rfl
    conv_lhs => rw [h, hd]
    rw [h5, h2]

theorem rt_flx (f : String) (rest : List Char)
    (hdata : f.data = 'f' :: 'l' :: 'x' :: '_' :: rest)
    (hne_r : f ≠ ("old_r")) (hne_s : f ≠ ("old_s")) :
    humanAfterFlex f = .ok f := by
  have hflx : strTake f 4 = "flx_" := by
    apply string_ext
    show (f.data).take 4 = ("flx_").data
    rw [hdata]
    rfl
  have hflex : flex_name_to_human_readable_name f = .ok f := by
    unfold flex_name_to_human_readable_name
    rw [if_neg hne_r, if_neg hne_s, if_pos hflx]
  have hner : f ≠ "[root]" := ne_of_data_head _ _ 'f' '[' _ _ hdata rfl (by decide)
  have hnes : f ≠ "[sink]" := ne_of_data_head _ _ 'f' '[' _ _ hdata rfl (by decide)
  have hhuman : human_readable_name_to_flex_name f = .ok f := by
    unfold human_readable_name_to_flex_name
    rw [if_neg hner, if_neg hnes, if_pos hflx]
  unfold humanAfterFlex
  rw [hflex]
  exact hhuman

theorem humanToFlex_table_shape (w : List Char) :
    human_readable_name_to_flex_name ⟨'t' :: 'a' :: 'b' :: 'l' :: 'e' :: '[' :: (w ++ [']'])⟩ =
      .ok (strTake ⟨(w ++ [']']).dropLast⟩ 4 ++ "t" ++ strDrop ⟨(w ++ [']']).dropLast⟩ 4) := rfl

theorem humanToFlex_cond_shape (w : List Char) :
    human_readable_name_to_flex_name
      ⟨'c' :: 'o' :: 'n' :: 'd' :: 'i' :: 't' :: 'i' :: 'o' :: 'n' :: 'a' :: 'l' :: '[' ::
        (w ++ [']'])⟩ =
      .ok (strTake ⟨(w ++ [']']).dropLast⟩ 4 ++ "c" ++ strDrop ⟨(w ++ [']']).dropLast⟩ 4) := rfl

theorem rt_table (f : String) (c1 c2 c3 c4 : Char) (rest : List Char)
    (hdata : f.data = c1 :: c2 :: c3 :: c4 :: 't' :: rest)
    (hne_r : f ≠ ("old_r")) (hne_s : f ≠ ("old_s"))
    (hne_flx : [c1, c2, c3, c4] ≠ ['f', 'l', 'x', '_']) :
    humanAfterFlex f = .ok f := by
  have htake : strTake f 4 = ⟨[c1, c2, c3, c4]⟩ := by
    apply string_ext
    show (f.data).take 4 = [c1, c2, c3, c4]
    rw [hdata]
    rfl
  have hflx : ¬ (strTake f 4 = "flx_") := by
    rw [htake]
    intro hcon
    exact hne_flx (((string_mk_eq_iff _ _).mp hcon).trans rfl)
  have hchar : charAt? f 4 = some 't' := by
    unfold charAt?
    rw [hdata]
    rfl
  have hflex : flex_name_to_human_readable_name f =
      .ok ("table" ++ "[" ++ eliminate_type_letter_in_name f ++ "]") := by
    unfold flex_name_to_human_readable_name
    rw [if_neg hne_r, if_neg hne_s, if_neg hflx, hchar]
    rfl
  have helim : (eliminate_type_letter_in_name f).data = [c1, c2, c3, c4] ++ rest := by
    unfold eliminate_type_letter_in_name
    rw [strdata_append]
    show (f.data).take 4 ++ (f.data).drop 5 = _
    rw [hdata]
    rfl
  have hshape : ("table" ++ "[" ++ eliminate_type_letter_in_name f ++ "]") =
      ⟨'t' :: 'a' :: 'b' :: 'l' :: 'e' :: '[' :: (([c1, c2, c3, c4] ++ rest) ++ [']'])⟩ := by
    apply string_ext
    rw [strdata_append, strdata_append, strdata_append, helim]
    simp
  have hhuman : human_readable_name_to_flex_name
      ("table" ++ "[" ++ eliminate_type_letter_in_name f ++ "]") = .ok f := by
    rw [hshape, humanToFlex_table_shape, List.dropLast_concat]
    refine congrArg Except.ok (string_ext _ _ ?_)
    rw [strdata_append, strdata_append]
    show ((([c1, c2, c3, c4] ++ rest).take 4 ++ ("t").data) ++
      ([c1, c2, c3, c4] ++ rest).drop 4) = f.data
    rw [hdata]
    rfl
  unfold humanAfterFlex
  rw [hflex]
  exact hhuman

theorem rt_cond (f : String) (c1 c2 c3 c4 : Char) (rest : List Char)
    (hdata : f.data = c1 :: c2 :: c3 :: c4 :: 'c' :: rest)
    (hne_r : f ≠ ("old_r")) (hne_s : f ≠ ("old_s"))
    (hne_flx : [c1, c2, c3, c4] ≠ ['f', 'l', 'x', '_']) :
    humanAfterFlex f = .ok f := by
  have htake : strTake f 4 = ⟨[c1, c2, c3, c4]⟩ := by
    apply string_ext
    show (f.data).take 4 = [c1, c2, c3, c4]
    rw [hdata]
    rfl
  have hflx : ¬ (strTake f 4 = "flx_") := by
    rw [htake]
    intro hcon
    exact hne_flx (((string_mk_eq_iff _ _).mp hcon).trans rfl)
  have hchar : charAt? f 4 = some 'c' := by
    unfold charAt?
    rw [hdata]
    rfl
  have hflex : flex_name_to_human_readable_name f =
      .ok ("conditional" ++ "[" ++ eliminate_type_letter_in_name f ++ "]") := by
    unfold flex_name_to_human_readable_name
    rw [if_neg hne_r, if_neg hne_s, if_neg hflx, hchar]
    rfl
  have helim : (eliminate_type_letter_in_name f).data = [c1, c2, c3, c4] ++ rest := by
    unfold eliminate_type_letter_in_name
    rw [strdata_append]
    show (f.data).take 4 ++ (f.data).drop 5 = _
    rw [hdata]
    rfl
  have hshape : ("conditional" ++ "[" ++ eliminate_type_letter_in_name f ++ "]") =
      ⟨'c' :: 'o' :: 'n' :: 'd' :: 'i' :: 't' :: 'i' :: 'o' :: 'n' :: 'a' :: 'l' :: '[' ::
        (([c1, c2, c3, c4] ++ rest) ++ [']'])⟩ := by
    apply string_ext
    rw [strdata_append, strdata_append, strdata_append, helim]
    simp
  have hhuman : human_readable_name_to_flex_name
      ("conditional" ++ "[" ++ eliminate_type_letter_in_name f ++ "]") = .ok f := by
    rw [hshape, humanToFlex_cond_shape, List.dropLast_concat]
    refine congrArg Except.ok (string_ext _ _ ?_)
    rw [strdata_append, strdata_append]
    show ((([c1, c2, c3, c4] ++ rest).take 4 ++ ("c").data) ++
      ([c1, c2, c3, c4] ++ rest).drop 4) = f.data
    rw [hdata]
    rfl
  unfold humanAfterFlex
  rw [hflex]
  exact hhuman

theorem secondRT_of_first (f : String) (h : humanAfterFlex f = .ok f) :
    secondRoundTrip f = flex_name_to_human_readable_name f := by
  unfold humanAfterFlex at h
  unfold secondRoundTrip
  cases hfl : flex_name_to_human_readable_name f with
  | error e =>
    rw [hfl] at h
  | ok hstr =>
    rw [hfl] at h
    show (match human_readable_name_to_flex_name hstr with
          | Except.error e => Except.error e
          | Except.ok f2 => flex_name_to_human_readable_name f2) = _
    rw [show human_readable_name_to_flex_name hstr = .ok f from h]
    exact hfl

/-- C4 (amended): for every valid flex-name EXCEPT the synthetic root
`old_r` and sink `old_s`, both round-trip identities hold:
`human_to_flex (flex_to_human f) = f` and
`flex_to_human (human_to_flex (flex_to_human f)) = flex_to_human f`.
The root and sink are excluded because `flex_to_human` renders them
with surrounding spaces (`" [root] "` / `" [sink] "`), which
`human_to_flex` — expecting `"[root]"` / `"[sink]"` — rejects with
`InvalidName`. -/
theorem c4_roundtrip (f : String) (hv : ValidFlexName f)
    (hr : f ≠ ("old_r")) (hs : f ≠ ("old_s")) :
    humanAfterFlex f = .ok f ∧
    secondRoundTrip f = flex_name_to_human_readable_name f := by
  have h1 : humanAfterFlex f = .ok f := by
    rcases hv with hv | hv | hv | ⟨hp, hk⟩
    · exact absurd hv hr
    · exact absurd hv hs
    · have hdat : (f.data).take 4 = ['f', 'l', 'x', '_'] := by
        have := (string_mk_eq_iff ((f.data).take 4) ("flx_")).mp hv
        exact this.trans rfl
      exact rt_flx f ((f.data).drop 4) (take4_decomp _ _ _ _ _ hdat) hr hs
    · rcases hp with hp | hp <;> rcases hk with hk | hk
      · have hdat : (f.data).take 4 = ['o', 'l', 'd', '_'] :=
          ((string_mk_eq_iff _ _).mp hp).trans rfl
        exact rt_table f 'o' 'l' 'd' '_' ((f.data).drop 5)
          (take4_get4_decomp _ _ _ _ _ _ hdat hk) hr hs (by decide)
      · have hdat : (f.data).take 4 = ['o', 'l', 'd', '_'] :=
          ((string_mk_eq_iff _ _).mp hp).trans rfl
        exact rt_cond f 'o' 'l' 'd' '_' ((f.data).drop 5)
          (take4_get4_decomp _ _ _ _ _ _ hdat hk) hr hs (by decide)
      · have hdat : (f.data).take 4 = ['n', 'e', 'w', '_'] :=
          ((string_mk_eq_iff _ _).mp hp).trans rfl
        exact rt_table f 'n' 'e' 'w' '_' ((f.data).drop 5)
          (take4_get4_decomp _ _ _ _ _ _ hdat hk) hr hs (by decide)
      · have hdat : (f.data).take 4 = ['n', 'e', 'w', '_'] :=
          ((string_mk_eq_iff _ _).mp hp).trans rfl
        exact rt_cond f 'n' 'e' 'w' '_' ((f.data).drop 5)
          (take4_get4_decomp _ _ _ _ _ _ hdat hk) hr hs (by decide)
  exact ⟨h1, secondRT_of_first f h1⟩

/-- C4 (counterexample): the round-trip fails on the valid flex-name
`old_r`: its human-readable form is the spaced `" [root] "`, on which
`human_readable_name_to_flex_name` raises InvalidName, so
`human_to_flex (flex_to_human "old_r")` is an error, not `"old_r"`. -/
theorem c4_counterexample :
    ValidFlexName ("old_r") ∧
    flex_name_to_human_readable_name ("old_r") = .ok (" [root] ") ∧
    human_readable_name_to_flex_name (" [root] ") =
      .error (.reconfigError ("Invalid human readable name")) ∧
    humanAfterFlex ("old_r") ≠ .ok ("old_r") := by
  exact ⟨by decide, by decide, by decide, by decide⟩

theorem c4_roundtrip_witness :
    ValidFlexName ("old_tMyIngress.acl") ∧
    ("old_tMyIngress.acl" : String) ≠ ("old_r") ∧
    ("old_tMyIngress.acl" : String) ≠ ("old_s") ∧
    humanAfterFlex ("old_tMyIngress.acl") = .ok ("old_tMyIngress.acl") ∧
    secondRoundTrip ("old_tMyIngress.acl") =
      flex_name_to_human_readable_name ("old_tMyIngress.acl") ∧
    flex_name_to_human_readable_name ("old_tMyIngress.acl") =
      .ok ("table[old_MyIngress.acl]") ∧
    human_readable_name_to_flex_name ("conditional[new_node_4]") = .ok ("new_cnode_4") := by
  refine ⟨by decide, by decide, by decide, ?_, ?_, by decide, by decide⟩
  · exact (c4_roundtrip ("old_tMyIngress.acl") (by decide) (by decide) (by decide)).1
  · exact (c4_roundtrip ("old_tMyIngress.acl") (by decide) (by decide) (by decide)).2
